import Mathlib

/-!
Verification of the libant-rs protocol engine: a shallow embedding of the
frame codec (`src/message.rs`), the per-channel configuration state machine
(`src/channel.rs`) and the device bring-up / dispatch logic (`src/ant.rs`),
together with proofs about the claims of the specification.

Machine bytes (`u8`) are modelled as `Nat`; wherever the Rust code can
overflow a `u8` the model takes the value `% 256`.  Fallible operations —
in particular the places where the Rust code indexes out of bounds,
calls `unimplemented!()` or `expect`s a conversion — are modelled with
`Except Panic`.
-/

namespace Libant

/-! ## Byte-level helpers -/

/-- XOR-fold of a list of bytes, as the running `checksum ^= buf[i]` loops in
`src/message.rs`. -/
def listXor (l : List Nat) : Nat := l.foldl (· ^^^ ·) 0

/-! ## Constants from `src/message.rs` -/

def MESG_TX_SYNC : Nat := 0xA4
def RESPONSE_NO_ERROR : Nat := 0x00
def MESG_RESPONSE_EVENT_ID : Nat := 0x40
def MESG_UNASSIGN_CHANNEL_ID : Nat := 0x41
def MESG_ASSIGN_CHANNEL_ID : Nat := 0x42
def MESG_CHANNEL_MESG_PERIOD_ID : Nat := 0x43
def MESG_CHANNEL_SEARCH_TIMEOUT_ID : Nat := 0x44
def MESG_CHANNEL_RADIO_FREQ_ID : Nat := 0x45
def MESG_NETWORK_KEY_ID : Nat := 0x46
def MESG_RESET : Nat := 0x4A
def MESG_OPEN_CHANNEL_ID : Nat := 0x4B
def MESG_CLOSE_CHANNEL_ID : Nat := 0x4C
def MESG_REQUEST : Nat := 0x4D
def MESG_BROADCAST_DATA_ID : Nat := 0x4E
def MESG_CHANNEL_ID_ID : Nat := 0x51
def MESG_CAPABILITIES_ID : Nat := 0x54
def MESG_STARTUP_MESG_ID : Nat := 0x6F
def EVENT_RX_SEARCH_TIMEOUT : Nat := 0x01
def EVENT_CHANNEL_CLOSED : Nat := 0x07
def CHANNEL_IN_WRONG_STATE : Nat := 0x15

/-! ## Outbound messages (`struct Message` and `Message::encode`) -/

/-- `Message { id: u8, data: Vec<u8> }` from `src/message.rs`. -/
structure Message where
  id : Nat
  data : List Nat
  deriving Repr, DecidableEq

/-- `Message::encode`: the Rust code allocates `vec![0; total_size + 3]`
(with `total_size = 3 + data.len()`), writes sync, length (`size as u8`),
id and payload, then stores the XOR checksum at `buf[total_size]`, leaving
the final two bytes of the vector at zero. -/
def Message.encode (m : Message) : List Nat :=
  let header := [MESG_TX_SYNC, m.data.length % 256, m.id] ++ m.data
  header ++ [listXor header, 0, 0]

/-- Outbound message constructors from `src/message.rs`. -/
def reset : Message := ⟨MESG_RESET, List.replicate 15 0⟩

def set_network_key (network_number : Nat) (key : List Nat) : Message :=
  ⟨MESG_NETWORK_KEY_ID, network_number :: key⟩

def assign_channel (channel channel_type network : Nat) : Message :=
  ⟨MESG_ASSIGN_CHANNEL_ID, [channel, channel_type, network]⟩

def set_channel_id (channel device_id device_type transmission_type : Nat) : Message :=
  ⟨MESG_CHANNEL_ID_ID,
    [channel, device_id % 256, device_id / 256 % 256, device_type, transmission_type]⟩

def set_hp_search_timeout (channel timeout : Nat) : Message :=
  ⟨MESG_CHANNEL_SEARCH_TIMEOUT_ID, [channel, timeout]⟩

def set_channel_period (channel period : Nat) : Message :=
  ⟨MESG_CHANNEL_MESG_PERIOD_ID, [channel, period % 256, period / 256 % 256]⟩

def set_channel_frequency (channel frequency : Nat) : Message :=
  ⟨MESG_CHANNEL_RADIO_FREQ_ID, [channel, frequency]⟩

def open_channel (channel : Nat) : Message :=
  ⟨MESG_OPEN_CHANNEL_ID, [channel]⟩

def close_channel (channel : Nat) : Message :=
  ⟨MESG_CLOSE_CHANNEL_ID, [channel]⟩

def unassign_channel (channel : Nat) : Message :=
  ⟨MESG_UNASSIGN_CHANNEL_ID, [channel]⟩

/-! ## Inbound responses and the `ReadBuffer` iterator -/

/-- `enum Response` from `src/message.rs`: `Startup(StartupMessage)` holds the
single reason byte, `ChannelResponse(ChannelResponseMessage)` holds the raw
3-byte body, `BroadcastData(BroadcastDataMessage)` the raw 9-byte body. -/
inductive Response where
  | startup (reason : Nat)
  | channelResponse (bytes : List Nat)
  | broadcastData (bytes : List Nat)
  deriving Repr, DecidableEq

/-- The ways the Rust decoding path can panic: slice indexing out of bounds,
`unimplemented!()` on an unrecognized message id or response code, and a
failed `try_into().expect(..)` on a body of the wrong length. -/
inductive Panic where
  | indexOutOfBounds
  | unimplemented
  | wrongLength
  | unwrapFailed
  deriving Repr, DecidableEq

/-- `process_message` from `src/message.rs`: dispatch on `buf[2]`
(`MESG_ID_OFFSET`); a startup message reads the single byte `buf[3]`
(`MESG_DATA_OFFSET`), the other two take the whole tail `buf[3..]`, whose
`try_into()` demands exactly 3 resp. 9 bytes; any other id hits
`unimplemented!()`. -/
def process_message (buf : List Nat) : Except Panic Response :=
  match buf[2]? with
  | none => .error .indexOutOfBounds
  | some i =>
    if i = MESG_STARTUP_MESG_ID then
      match buf[3]? with
      | none => .error .indexOutOfBounds
      | some r => .ok (.startup r)
    else if i = MESG_RESPONSE_EVENT_ID then
      if (buf.drop 3).length = 3 then .ok (.channelResponse (buf.drop 3))
      else .error .wrongLength
    else if i = MESG_BROADCAST_DATA_ID then
      if (buf.drop 3).length = 9 then .ok (.broadcastData (buf.drop 3))
      else .error .wrongLength
    else .error .unimplemented

/-- One pass of `<ReadBuffer as Iterator>::next` together with the driving
`for mesg in &mut read_buffer` loop, fuelled so that the definition computes.
From the cursor `index`:
 * `index >= inner.len()` ends the iteration (`None`);
 * on a sync byte the length byte `inner[index + 1]` is read (panicking when
   it is past the end), the frame end `index + len + 4` is computed, the
   checksum loop XORs `inner[index..end]` (panicking when `end` exceeds the
   buffer), and a zero checksum emits `process_message(&inner[index..end-1])`
   and restarts the scan at `end`;
 * otherwise the cursor advances by one byte.
The result collects the emitted responses in order together with the panic,
if any, that ends the iteration early. -/
def rbRun : Nat → List Nat → Nat → List Response × Option Panic
  | 0, _, _ => ([], none)
  | fuel + 1, inner, index =>
    if inner.length ≤ index then ([], none)
    else if inner.getD index 0 = MESG_TX_SYNC then
      match inner[index + 1]? with
      | none => ([], some .indexOutOfBounds)
      | some b =>
        if index + b + 4 ≤ inner.length then
          if listXor ((inner.drop index).take (b + 4)) = 0 then
            match process_message ((inner.drop index).take (b + 3)) with
            | .ok r =>
              let rest := rbRun fuel inner (index + b + 4)
              (r :: rest.1, rest.2)
            | .error e => ([], some e)
          else rbRun fuel inner (index + 1)
        else ([], some .indexOutOfBounds)
    else rbRun fuel inner (index + 1)

/-- Exhausting the `ReadBuffer` iterator starting from cursor `index`. -/
def rbDecodeFrom (inner : List Nat) (index : Nat) : List Response × Option Panic :=
  rbRun (inner.length - index + 1) inner index

/-- Exhausting the `ReadBuffer` iterator over a fresh buffer
(`ReadBuffer::new` starts at `index = 0`). -/
def rbDecode (inner : List Nat) : List Response × Option Panic :=
  rbDecodeFrom inner 0

/-! ## Supported frames, noise segments, bit flips -/

/-- The inbound (id, payload-length) pairs the decoder supports:
startup `0x6F` carries 1 byte, response-event `0x40` carries 3,
broadcast-data `0x4E` carries 9. -/
def goodFrame (id : Nat) (p : List Nat) : Prop :=
  (id = MESG_STARTUP_MESG_ID ∧ p.length = 1) ∨
  (id = MESG_RESPONSE_EVENT_ID ∧ p.length = 3) ∨
  (id = MESG_BROADCAST_DATA_ID ∧ p.length = 9)

instance (id : Nat) (p : List Nat) : Decidable (goodFrame id p) := by
  unfold goodFrame; infer_instance

/-- The `Response` that `process_message` builds from a frame with message
id `id` and payload `p`. -/
def respOf (id : Nat) (p : List Nat) : Response :=
  if id = MESG_STARTUP_MESG_ID then .startup (p.getD 0 0)
  else if id = MESG_RESPONSE_EVENT_ID then .channelResponse p
  else .broadcastData p

/-- A segment of the inbound byte stream: either a well-formed encoded
frame or raw noise. -/
inductive Seg where
  | frame (id : Nat) (p : List Nat)
  | noise (ns : List Nat)

/-- The bytes a segment contributes to the stream. -/
def Seg.bytes : Seg → List Nat
  | .frame id p => (Message.mk id p).encode
  | .noise ns => ns

/-- A good segment: a frame of a supported id with the payload length that
id carries, or noise free of the sync byte `0xA4`. -/
def Seg.good : Seg → Prop
  | .frame id p => goodFrame id p
  | .noise ns => ∀ b ∈ ns, b ≠ MESG_TX_SYNC

def segsBytes : List Seg → List Nat
  | [] => []
  | s :: t => s.bytes ++ segsBytes t

def segsResps : List Seg → List Response
  | [] => []
  | .frame id p :: t => respOf id p :: segsResps t
  | .noise _ :: t => segsResps t

/-- Does a byte sequence contain a checksum-valid frame entirely within
itself (a sync byte whose declared frame fits in the sequence and whose
XOR checksum comes out zero)? -/
def containsValidFrame (ns : List Nat) : Prop :=
  ∃ i < ns.length, ns.getD i 0 = MESG_TX_SYNC ∧
    i + ns.getD (i + 1) 0 + 4 ≤ ns.length ∧
    listXor ((ns.drop i).take (ns.getD (i + 1) 0 + 4)) = 0

instance (ns : List Nat) : Decidable (containsValidFrame ns) := by
  unfold containsValidFrame; infer_instance

/-- Flip bit `m` (0-7) of byte `k` of a buffer. -/
def flipBit (l : List Nat) (k m : Nat) : List Nat :=
  l.set k (l.getD k 0 ^^^ 2 ^ m)

/-- Whether a decoded response carries the given wire message id
(`Startup` ↔ `0x6F`, `ChannelResponse` ↔ `0x40`, `BroadcastData` ↔ `0x4E`). -/
def Response.isId (r : Response) (id : Nat) : Prop :=
  match r with
  | .startup _ => id = MESG_STARTUP_MESG_ID
  | .channelResponse _ => id = MESG_RESPONSE_EVENT_ID
  | .broadcastData _ => id = MESG_BROADCAST_DATA_ID

instance : ∀ s : Seg, Decidable s.good
  | .frame id p => inferInstanceAs (Decidable (goodFrame id p))
  | .noise ns => inferInstanceAs (Decidable (∀ b ∈ ns, b ≠ MESG_TX_SYNC))

/-! ## The channel configuration machine (`src/channel.rs`) -/

/-- `Config` from `src/channel.rs` (all fields private, built with the
builder methods). `device_id` and `period` are `u16`, the rest `u8`. -/
structure Config where
  device_id : Nat
  device_type : Nat
  channel_type : Nat
  frequency : Nat
  period : Nat
  timeout : Nat
  transmission_type : Nat
  deriving Repr, DecidableEq

/-- `Config::new()`: all-zero default except `channel_type = 0x00`,
`timeout = 30`. -/
def Config.new : Config :=
  { device_id := 0, device_type := 0, channel_type := 0, frequency := 0
    period := 0, timeout := 30, transmission_type := 0 }

/-- `enum State` from `src/channel.rs`. -/
inductive ChannelState where
  | Assign | Unassign | SetDeviceId | SetTimeout | SetFrequency | SetPeriod
  | Open | Closed | Ready
  deriving Repr, DecidableEq

/-- `Channel` from `src/channel.rs`. -/
structure Channel where
  state : ChannelState
  number : Nat
  device : Config
  deriving Repr, DecidableEq

/-- `Channel::new`: a fresh channel starts in `Assign`. -/
def Channel.new (number : Nat) (device : Config) : Channel :=
  { state := .Assign, number, device }

/-- `Channel::assign`. -/
def Channel.assign (c : Channel) (network : Nat) : Message :=
  assign_channel c.number c.device.channel_type network

/-- `Channel::set_channel_id`. -/
def Channel.set_channel_id (c : Channel) : Message :=
  Libant.set_channel_id c.number c.device.device_id c.device.device_type
    c.device.transmission_type

/-- `Channel::set_hp_search_timeout`. -/
def Channel.set_hp_search_timeout (c : Channel) : Message :=
  Libant.set_hp_search_timeout c.number c.device.timeout

/-- `Channel::set_period`. -/
def Channel.set_period (c : Channel) : Message :=
  Libant.set_channel_period c.number c.device.period

/-- `Channel::set_frequency`. -/
def Channel.set_frequency (c : Channel) : Message :=
  Libant.set_channel_frequency c.number c.device.frequency

/-- `Channel::open` (named `openMsg` because `open` is a Lean keyword). -/
def Channel.openMsg (c : Channel) : Message :=
  open_channel c.number

/-- Accessors of `ChannelResponseMessage([u8; 3])`. -/
def crmChannel (bytes : List Nat) : Nat := bytes.getD 0 0

def crmMessageId (bytes : List Nat) : Nat := bytes.getD 1 0

def crmCodeByte (bytes : List Nat) : Nat := bytes.getD 2 0

/-- `Channel::route`: in each configuration state the expected
acknowledgement id advances the state one step and returns the next
outbound configuration message; anything else returns `None`.  In state
`Open` both branches return `None`; every remaining state hits
`unimplemented!()`. -/
def Channel.route (c : Channel) (mesg : List Nat) :
    Except Panic (Channel × Option Message) :=
  match c.state with
  | .Assign =>
    if crmMessageId mesg = MESG_ASSIGN_CHANNEL_ID then
      let c' := { c with state := ChannelState.SetDeviceId }
      .ok (c', some c'.set_channel_id)
    else .ok (c, none)
  | .SetDeviceId =>
    if crmMessageId mesg = MESG_CHANNEL_ID_ID then
      let c' := { c with state := ChannelState.SetTimeout }
      .ok (c', some c'.set_hp_search_timeout)
    else .ok (c, none)
  | .SetTimeout =>
    if crmMessageId mesg = MESG_CHANNEL_SEARCH_TIMEOUT_ID then
      let c' := { c with state := ChannelState.SetPeriod }
      .ok (c', some c'.set_period)
    else .ok (c, none)
  | .SetPeriod =>
    if crmMessageId mesg = MESG_CHANNEL_MESG_PERIOD_ID then
      let c' := { c with state := ChannelState.SetFrequency }
      .ok (c', some c'.set_frequency)
    else .ok (c, none)
  | .SetFrequency =>
    if crmMessageId mesg = MESG_CHANNEL_RADIO_FREQ_ID then
      let c' := { c with state := ChannelState.Open }
      .ok (c', some c'.openMsg)
    else .ok (c, none)
  | .Open => .ok (c, none)
  | _ => .error .unimplemented

/-! ## The bring-up machine and dispatcher (`src/ant.rs`) -/

/-- `enum State` from `src/ant.rs`. -/
inductive AntState where
  | NotReady | Reset | SetNetworkKey | Running
  deriving Repr, DecidableEq

/-- `enum ChannelResponseCode` from `src/message.rs`. -/
inductive ChannelResponseCode where
  | ResponseNoError | EventRxSearchTimeout | EventRxFail | EventTx
  | EventTransferTxCompleted | EventTransferTxFailed | EventChannelClosed
  | EventRxFailGoToSearch | ChannelCollision | ChannelInWrongState
  deriving Repr, DecidableEq

/-- `ChannelResponseMessage::code`: decode of the third body byte;
`none` models the `unimplemented!()` panic on an unknown code. -/
def codeOf? (b : Nat) : Option ChannelResponseCode :=
  match b with
  | 0x00 => some .ResponseNoError
  | 0x01 => some .EventRxSearchTimeout
  | 0x02 => some .EventRxFail
  | 0x03 => some .EventTx
  | 0x05 => some .EventTransferTxCompleted
  | 0x06 => some .EventTransferTxFailed
  | 0x07 => some .EventChannelClosed
  | 0x08 => some .EventRxFailGoToSearch
  | 0x09 => some .ChannelCollision
  | 0x15 => some .ChannelInWrongState
  | _ => none

/-- `enum AntError` from `src/error.rs` (the `rusb` payload of
`UsbDeviceError` is not modelled). -/
inductive AntError where
  | UsbDeviceError | UnableToDecode | RequestSendError | MessageTryRecvError
  | AlreadyRunning | Reset | ChannelExists (n : Nat)
  deriving Repr, DecidableEq

/-- `enum Response` from `src/ant.rs` (events sent to the caller). -/
inductive AntResponse where
  | broadcastData (bytes : List Nat)
  | error (e : AntError)
  deriving Repr, DecidableEq

/-- `enum Request` from `src/ant.rs` (caller commands). -/
inductive Request where
  | OpenChannel (number : Nat) (device : Config)
  | CloseChannel (number : Nat)
  | Send (mesg : Message)
  | Quit

def MESG_EVENT_ID : Nat := 0x01

def ANT_NETWORK : Nat := 1

def ANT_NETWORK_KEY : List Nat := [0xB9, 0xA5, 0x21, 0xFB, 0xBD, 0x72, 0xC3, 0x45]

/-- The dispatcher state owned by `Ant`: the bring-up state and the eight
channel slots (`channels: [Option<Channel>; 8]`). -/
structure Ant where
  state : AntState
  channels : List (Option Channel)
  deriving Repr, DecidableEq

/-- `Ant::route` from `src/ant.rs`.  `writeOk` is the outcome of each
attempted transport write: in the `Reset`/`Startup` arm a failed
`set_network_key` returns the state to `Reset`; the `unwrap()`ed writes of
the event arm panic on failure (`Panic.unwrapFailed`); the `let _ =` write
of the acknowledgement arm ignores failure.  Results are the updated
state, the messages successfully written to the transport, and the
responses sent to the caller.  Slot indexing past the end of the
8-element array is the Rust index panic. -/
def Ant.route (writeOk : Bool) (a : Ant) (mesg : Response) :
    Except Panic (Ant × List Message × List AntResponse) :=
  match a.state with
  | .NotReady => .ok (a, [], [])
  | .Reset =>
    match mesg with
    | .startup _ =>
      if writeOk then
        .ok ({ a with state := AntState.SetNetworkKey },
          [set_network_key ANT_NETWORK ANT_NETWORK_KEY], [])
      else
        .ok ({ a with state := AntState.Reset }, [], [])
    | _ => .ok (a, [], [])
  | .SetNetworkKey =>
    match mesg with
    | .startup _ => .ok ({ a with state := AntState.Reset }, [], [])
    | .channelResponse bytes =>
      match codeOf? (crmCodeByte bytes) with
      | none => .error .unimplemented
      | some code =>
        if code = ChannelResponseCode.ResponseNoError then
          .ok ({ a with state := AntState.Running }, [], [])
        else .ok (a, [], [])
    | _ => .ok (a, [], [])
  | .Running =>
    match mesg with
    | .startup _ => .ok ({ a with state := AntState.Reset }, [], [])
    | .channelResponse bytes =>
      if crmMessageId bytes = MESG_EVENT_ID then
        match codeOf? (crmCodeByte bytes) with
        | none => .error .unimplemented
        | some .EventRxFail => .ok (a, [], [])
        | some .EventRxSearchTimeout => .ok (a, [], [])
        | some .EventRxFailGoToSearch => .ok (a, [], [])
        | some .EventChannelClosed =>
          match a.channels[crmChannel bytes]? with
          | none => .error .indexOutOfBounds
          | some (some c) =>
            if writeOk then .ok (a, [c.openMsg], []) else .error .unwrapFailed
          | some none =>
            if writeOk then .ok (a, [unassign_channel (crmChannel bytes)], [])
            else .error .unwrapFailed
        | some _ => .ok (a, [], [])
      else
        match codeOf? (crmCodeByte bytes) with
        | none => .error .unimplemented
        | some .ResponseNoError =>
          match a.channels[crmChannel bytes]? with
          | none => .error .indexOutOfBounds
          | some none => .ok (a, [], [])
          | some (some c) =>
            match c.route bytes with
            | .error e => .error e
            | .ok (c', out) =>
              let a' := { a with channels := a.channels.set (crmChannel bytes) (some c') }
              match out with
              | some mout => .ok (a', if writeOk then [mout] else [], [])
              | none => .ok (a', [], [])
        | some .ChannelInWrongState => .ok (a, [], [])
        | some _ => .ok (a, [], [])
    | .broadcastData bytes => .ok (a, [], [.broadcastData bytes])

/-- The `Err(Timeout)` arm of the read in `Ant::run`: while `NotReady`, a
timeout promotes the state to `Reset`; while `Reset`, a reset command is
written as long as `reset_attempts < 2` (bumping the counter), and
otherwise the loop returns the fatal `AntError::Reset`; in the remaining
states the timeout is ignored.  The transport write of the reset command
is modelled as succeeding. -/
def Ant.onTimeout (a : Ant) (resetAttempts : Nat) :
    Except AntError (Ant × Nat × List Message) :=
  match a.state with
  | .NotReady => .ok ({ a with state := AntState.Reset }, resetAttempts, [])
  | .Reset =>
    if resetAttempts < 2 then .ok (a, resetAttempts + 1, [reset])
    else .error .Reset
  | _ => .ok (a, resetAttempts, [])

/-- Handling one caller request in `Ant::run` (the `try_recv` arm, reached
only in the `Running` state).  Transport writes are modelled as
succeeding; the final `Bool` is whether the loop returns (`Quit`).
`OpenChannel` on an occupied slot reports `ChannelExists` to the caller
and changes nothing; on a free slot it stores a fresh channel and writes
its assign message.  `CloseChannel` writes a close command and frees the
slot.  Slot indexing past the 8-element array is the Rust index panic. -/
def Ant.handleRequest (a : Ant) (req : Request) :
    Except Panic (Ant × List Message × List AntResponse × Bool) :=
  match req with
  | .OpenChannel number device =>
    match a.channels[number]? with
    | none => .error .indexOutOfBounds
    | some (some _) => .ok (a, [], [.error (.ChannelExists number)], false)
    | some none =>
      let channel := Channel.new number device
      .ok ({ a with channels := a.channels.set number (some channel) },
        [channel.assign ANT_NETWORK], [], false)
  | .CloseChannel number =>
    match a.channels[number]? with
    | none => .error .indexOutOfBounds
    | some (some _) =>
      .ok ({ a with channels := a.channels.set number none },
        [close_channel number], [], false)
    | some none => .ok (a, [], [], false)
  | .Send mesg => .ok (a, [mesg], [], false)
  | .Quit => .ok (a, [reset], [], true)

/-! ## XOR algebra for the checksum -/

theorem foldl_xor_eq (l : List Nat) (a : Nat) :
    l.foldl (· ^^^ ·) a = a ^^^ l.foldl (· ^^^ ·) 0 := by
  induction l generalizing a with
  | nil => simp
  | cons x xs ih =>
    simp only [List.foldl_cons]
    rw [ih (a ^^^ x), ih (0 ^^^ x)]
    simp [Nat.xor_assoc]

theorem listXor_cons (x : Nat) (l : List Nat) : listXor (x :: l) = x ^^^ listXor l := by
  simp only [listXor, List.foldl_cons]
  rw [foldl_xor_eq]
  simp

theorem listXor_append (l₁ l₂ : List Nat) :
    listXor (l₁ ++ l₂) = listXor l₁ ^^^ listXor l₂ := by
  simp only [listXor, List.foldl_append]
  rw [foldl_xor_eq]

/-- Appending the XOR of a byte sequence to that sequence makes the whole
XOR to zero: why a well-formed frame passes the decoder's checksum test. -/
theorem listXor_self_append (l : List Nat) : listXor (l ++ [listXor l]) = 0 := by
  rw [listXor_append]
  simp [listXor]

/-! ## Unfolding lemmas for the decoder -/

theorem rbRun_fuel (f : Nat) : ∀ (g index : Nat) (inner : List Nat),
    inner.length - index < f → inner.length - index < g →
    rbRun f inner index = rbRun g inner index := by
  induction f with
  | zero => intro g index inner hf; omega
  | succ f ih =>
    intro g index inner hf hg
    cases g with
    | zero => omega
    | succ g =>
      simp only [rbRun]
      by_cases h1 : inner.length ≤ index
      · simp [h1]
      · simp only [if_neg h1]
        by_cases h2 : inner.getD index 0 = MESG_TX_SYNC
        · simp only [if_pos h2]
          cases hb : inner[index + 1]? with
          | none => rfl
          | some b =>
            by_cases h3 : index + b + 4 ≤ inner.length
            · simp only [if_pos h3]
              by_cases h4 : listXor ((inner.drop index).take (b + 4)) = 0
              · simp only [if_pos h4]
                cases hpm : process_message ((inner.drop index).take (b + 3)) with
                | ok r => rw [ih g (index + b + 4) inner (by omega) (by omega)]
                | error e => rfl
              · simp only [if_neg h4]
                exact ih g (index + 1) inner (by omega) (by omega)
            · simp [h3]
        · simp only [if_neg h2]
          exact ih g (index + 1) inner (by omega) (by omega)

theorem rbDecodeFrom_eq_rbRun (inner : List Nat) (index f : Nat)
    (hf : inner.length - index < f) :
    rbDecodeFrom inner index = rbRun f inner index :=
  rbRun_fuel _ _ _ _ (by omega) hf

/-- Cursor at or past the end of the buffer: the iterator returns `None`. -/
theorem rbDecodeFrom_done (inner : List Nat) (index : Nat)
    (h : inner.length ≤ index) : rbDecodeFrom inner index = ([], none) := by
  simp [rbDecodeFrom, rbRun, h]

/-- A non-sync byte under the cursor is skipped. -/
theorem rbDecodeFrom_skip (inner : List Nat) (index : Nat)
    (h : inner.getD index 0 ≠ MESG_TX_SYNC) :
    rbDecodeFrom inner index = rbDecodeFrom inner (index + 1) := by
  by_cases h1 : inner.length ≤ index
  · rw [rbDecodeFrom_done _ _ h1, rbDecodeFrom_done _ _ (by omega)]
  · rw [rbDecodeFrom_eq_rbRun inner index (inner.length - index + 1) (by omega)]
    simp only [rbRun, if_neg h1, if_neg h]
    exact (rbDecodeFrom_eq_rbRun _ _ _ (by omega)).symm

/-- A run of non-sync bytes is skipped. -/
theorem rbDecodeFrom_skipRun (inner : List Nat) (index stop : Nat)
    (hle : index ≤ stop)
    (h : ∀ j, index ≤ j → j < stop → inner.getD j 0 ≠ MESG_TX_SYNC) :
    rbDecodeFrom inner index = rbDecodeFrom inner stop := by
  have key : ∀ k i, i + k = stop →
      (∀ j, i ≤ j → j < stop → inner.getD j 0 ≠ MESG_TX_SYNC) →
      rbDecodeFrom inner i = rbDecodeFrom inner stop := by
    intro k
    induction k with
    | zero => intro i h0 _; rw [show i = stop by omega]
    | succ k ih =>
      intro i h0 hno
      rw [rbDecodeFrom_skip inner i (hno i (le_refl i) (by omega))]
      exact ih (i + 1) (by omega) (fun j hj1 hj2 => hno j (by omega) hj2)
  exact key (stop - index) index (by omega) h

/-- A checksum-valid frame under the cursor: the iterator hands the frame
body (without its checksum byte) to `process_message` and, on success,
emits the response and resumes past the frame. -/
theorem rbDecodeFrom_frame (pre p rest : List Nat) (n idb c : Nat)
    (hn : p.length = n)
    (hx : listXor ([MESG_TX_SYNC, n, idb] ++ p ++ [c]) = 0) :
    rbDecodeFrom (pre ++ ([MESG_TX_SYNC, n, idb] ++ p ++ [c]) ++ rest) pre.length =
      match process_message ([MESG_TX_SYNC, n, idb] ++ p) with
      | .ok r =>
        (r :: (rbDecodeFrom (pre ++ ([MESG_TX_SYNC, n, idb] ++ p ++ [c]) ++ rest)
            (pre.length + n + 4)).1,
          (rbDecodeFrom (pre ++ ([MESG_TX_SYNC, n, idb] ++ p ++ [c]) ++ rest)
            (pre.length + n + 4)).2)
      | .error e => ([], some e) := by
  set core : List Nat := [MESG_TX_SYNC, n, idb] ++ p ++ [c] with hcore
  have hclen : core.length = n + 4 := by simp [hcore, hn]
  set inner : List Nat := pre ++ core ++ rest with hinner
  have hlen : inner.length = pre.length + (n + 4) + rest.length := by
    simp only [hinner, List.length_append, hclen]
  have hidx : pre.length < inner.length := by omega
  have hdrop : inner.drop pre.length = core ++ rest := by
    rw [hinner, List.append_assoc, List.drop_left]
  have hgetD : inner.getD pre.length 0 = MESG_TX_SYNC := by
    have h0 : (inner.drop pre.length)[0]? = inner[pre.length + 0]? :=
      List.getElem?_drop inner pre.length 0
    rw [Nat.add_zero] at h0
    rw [hdrop, hcore] at h0
    rw [List.getD_eq_getElem?_getD, ← h0]
    rfl
  have hget1 : inner[pre.length + 1]? = some n := by
    have h1 : (inner.drop pre.length)[1]? = inner[pre.length + 1]? :=
      List.getElem?_drop inner pre.length 1
    rw [hdrop, hcore] at h1
    rw [← h1]
    rfl
  have htake4 : (inner.drop pre.length).take (n + 4) = core := by
    rw [hdrop, List.take_left' hclen]
  have htake3 : (inner.drop pre.length).take (n + 3) = [MESG_TX_SYNC, n, idb] ++ p := by
    rw [hdrop, hcore]
    have : ([MESG_TX_SYNC, n, idb] ++ p ++ [c]) ++ rest
        = ([MESG_TX_SYNC, n, idb] ++ p) ++ ([c] ++ rest) := by
      simp [List.append_assoc]
    rw [this, List.take_left' (by simp [hn])]
  rw [rbDecodeFrom_eq_rbRun inner pre.length (inner.length - pre.length + 1) (by omega)]
  simp only [rbRun, if_neg (by omega : ¬ inner.length ≤ pre.length), hgetD, if_pos rfl, hget1]
  have hend : pre.length + n + 4 ≤ inner.length := by omega
  rw [if_pos hend, htake4, htake3, if_pos hx]
  cases hpm : process_message ([MESG_TX_SYNC, n, idb] ++ p) with
  | ok r =>
    rw [rbRun_fuel _ (inner.length - (pre.length + n + 4) + 1) (pre.length + n + 4) inner
      (by omega) (by omega)]
    rfl
  | error e => rfl

/-! ## Well-formed frames and the round trip -/

theorem process_message_good (n id : Nat) (p : List Nat) (h : goodFrame id p) :
    process_message ([MESG_TX_SYNC, n, id] ++ p) = .ok (respOf id p) := by
  rcases h with ⟨hid, hl⟩ | ⟨hid, hl⟩ | ⟨hid, hl⟩ <;> subst hid
  · cases p with
    | nil => simp at hl
    | cons a t =>
      simp [process_message, respOf, MESG_STARTUP_MESG_ID]
  · simp [process_message, respOf, MESG_RESPONSE_EVENT_ID, MESG_STARTUP_MESG_ID, hl]
  · simp [process_message, respOf, MESG_BROADCAST_DATA_ID, MESG_STARTUP_MESG_ID,
      MESG_RESPONSE_EVENT_ID, hl]

/-- The shape of an encoded frame when the payload length fits a byte. -/
theorem encode_eq (id : Nat) (p : List Nat) (h : p.length < 256) :
    (Message.mk id p).encode =
      ([MESG_TX_SYNC, p.length, id] ++ p ++
        [listXor ([MESG_TX_SYNC, p.length, id] ++ p)]) ++ [0, 0] := by
  simp [Message.encode, Nat.mod_eq_of_lt h]

/-- A header followed by its own XOR checksum XORs to zero. -/
theorem listXor_frame_zero (n id : Nat) (p : List Nat) :
    listXor ([MESG_TX_SYNC, n, id] ++ p ++
      [listXor ([MESG_TX_SYNC, n, id] ++ p)]) = 0 :=
  listXor_self_append ([MESG_TX_SYNC, n, id] ++ p)

/-- The two trailing zero bytes of an encoded frame are skipped and the
iterator ends. -/
theorem rbDecodeFrom_pad (lst : List Nat) :
    rbDecodeFrom (lst ++ [0, 0]) lst.length = ([], none) := by
  have h0 : ∀ j, lst.length ≤ j → j < lst.length + 2 →
      (lst ++ [0, 0]).getD j 0 ≠ MESG_TX_SYNC := by
    intro j h1 h2
    rw [List.getD_append_right _ _ _ _ h1]
    have : j - lst.length = 0 ∨ j - lst.length = 1 := by omega
    rcases this with h | h <;> rw [h] <;> simp [MESG_TX_SYNC]
  rw [rbDecodeFrom_skipRun (lst ++ [0, 0]) lst.length (lst.length + 2) (by omega) h0]
  exact rbDecodeFrom_done _ _ (by simp)

/-- Decoding a single encoded frame of a supported id yields exactly its
response and then exhausts. -/
theorem rbDecode_encode (id : Nat) (p : List Nat) (h : goodFrame id p) :
    rbDecode ((Message.mk id p).encode) = ([respOf id p], none) := by
  have hlen : p.length < 256 := by
    rcases h with ⟨_, h⟩ | ⟨_, h⟩ | ⟨_, h⟩ <;> omega
  set c : Nat := listXor ([MESG_TX_SYNC, p.length, id] ++ p) with hc
  set core : List Nat := [MESG_TX_SYNC, p.length, id] ++ p ++ [c] with hcorein
  have henc : (Message.mk id p).encode = core ++ [0, 0] := encode_eq id p hlen
  have hx : listXor core = 0 := listXor_frame_zero p.length id p
  have hframe := rbDecodeFrom_frame [] p [0, 0] p.length id c rfl hx
  rw [process_message_good p.length id p h] at hframe
  simp only [List.nil_append, List.length_nil, Nat.zero_add] at hframe
  have hclen : core.length = p.length + 4 := by simp [hcorein]
  have hpad : rbDecodeFrom (core ++ [0, 0]) (p.length + 4) = ([], none) := by
    rw [← hclen]
    exact rbDecodeFrom_pad core
  rw [rbDecode, henc]
  have hshape : core ++ [0, 0] = ([MESG_TX_SYNC, p.length, id] ++ p ++ [c]) ++ [0, 0] := by
    rw [hcorein]
  rw [hshape] at hpad ⊢
  rw [hframe, hpad]

/-! ## Resynchronization over a stream of frames and sync-free noise -/

theorem getD_middle (pre mid rest : List Nat) (j : Nat)
    (h1 : pre.length ≤ j) (h2 : j < pre.length + mid.length) :
    (pre ++ mid ++ rest).getD j 0 = mid.getD (j - pre.length) 0 := by
  rw [List.append_assoc, List.getD_append_right _ _ _ _ h1]
  exact List.getD_append _ _ _ _ (by omega)

/-- A middle region free of the sync byte is scanned through without
emitting anything. -/
theorem rbDecodeFrom_skipMiddle (pre mid rest : List Nat)
    (h : ∀ b ∈ mid, b ≠ MESG_TX_SYNC) :
    rbDecodeFrom (pre ++ mid ++ rest) pre.length =
      rbDecodeFrom (pre ++ mid ++ rest) (pre.length + mid.length) := by
  refine rbDecodeFrom_skipRun _ _ _ (by omega) ?_
  intro j h1 h2
  rw [getD_middle pre mid rest j h1 h2]
  have hlt : j - pre.length < mid.length := by omega
  rw [List.getD_eq_getElem mid 0 hlt]
  exact h _ (List.getElem_mem hlt)

theorem rbDecodeFrom_segments (ss : List Seg) : ∀ pre : List Nat,
    (∀ s ∈ ss, s.good) →
    rbDecodeFrom (pre ++ segsBytes ss) pre.length = (segsResps ss, none) := by
  induction ss with
  | nil =>
    intro pre _
    simp only [segsBytes, segsResps, List.append_nil]
    exact rbDecodeFrom_done _ _ (le_refl _)
  | cons s t ih =>
    intro pre hgood
    have hs : s.good := hgood s (by simp)
    have ht : ∀ u ∈ t, u.good := fun u hu => hgood u (by simp [hu])
    cases s with
    | noise ns =>
      have hns : ∀ b ∈ ns, b ≠ MESG_TX_SYNC := hs
      have hsh : pre ++ segsBytes (.noise ns :: t) = pre ++ ns ++ segsBytes t := by
        simp [segsBytes, Seg.bytes, List.append_assoc]
      rw [hsh, rbDecodeFrom_skipMiddle pre ns (segsBytes t) hns]
      have : pre.length + ns.length = (pre ++ ns).length := by simp
      rw [this, List.append_assoc] at *
      rw [← List.append_assoc, ih (pre ++ ns) ht]
      simp [segsResps]
    | frame id p =>
      have hgf : goodFrame id p := hs
      have hlen : p.length < 256 := by
        rcases hgf with ⟨_, h⟩ | ⟨_, h⟩ | ⟨_, h⟩ <;> omega
      set c : Nat := listXor ([MESG_TX_SYNC, p.length, id] ++ p) with hc
      set core : List Nat := [MESG_TX_SYNC, p.length, id] ++ p ++ [c] with hcorein
      have henc : (Message.mk id p).encode = core ++ [0, 0] := encode_eq id p hlen
      have hx : listXor core = 0 := listXor_frame_zero p.length id p
      have hsh : pre ++ segsBytes (.frame id p :: t)
          = pre ++ ([MESG_TX_SYNC, p.length, id] ++ p ++ [c]) ++ ([0, 0] ++ segsBytes t) := by
        simp only [segsBytes, Seg.bytes, henc, hcorein, List.append_assoc]
      rw [hsh]
      rw [rbDecodeFrom_frame pre p ([0, 0] ++ segsBytes t) p.length id c rfl hx,
        process_message_good p.length id p hgf]
      have hclen : core.length = p.length + 4 := by simp [hcorein]
      have hsh2 : pre ++ ([MESG_TX_SYNC, p.length, id] ++ p ++ [c]) ++ ([0, 0] ++ segsBytes t)
          = (pre ++ core) ++ [0, 0] ++ segsBytes t := by
        simp only [hcorein, List.append_assoc]
      have hlen2 : pre.length + p.length + 4 = (pre ++ core).length := by
        simp [hclen]
        omega
      have hskip : rbDecodeFrom
            (pre ++ ([MESG_TX_SYNC, p.length, id] ++ p ++ [c]) ++ ([0, 0] ++ segsBytes t))
            (pre.length + p.length + 4)
          = (segsResps t, none) := by
        rw [hsh2, hlen2,
          rbDecodeFrom_skipMiddle (pre ++ core) [0, 0] (segsBytes t) (by decide)]
        have hlen3 : (pre ++ core).length + [0, 0].length
            = (pre ++ core ++ [0, 0]).length := by
          simp [Nat.add_assoc]
        rw [hlen3]
        exact ih (pre ++ core ++ [0, 0]) ht
      rw [hskip]
      simp [segsResps]

/-! ## Single-bit corruption -/

theorem length_flipBit (l : List Nat) (k m : Nat) :
    (flipBit l k m).length = l.length := by
  simp [flipBit]

theorem getD_flipBit_ne (l : List Nat) (k m t : Nat) (h : t ≠ k) :
    (flipBit l k m).getD t 0 = l.getD t 0 := by
  rw [List.getD_eq_getElem?_getD, List.getD_eq_getElem?_getD, flipBit,
    List.getElem?_set_ne (by omega)]

theorem getD_flipBit_self (l : List Nat) (k m : Nat) (h : k < l.length) :
    (flipBit l k m).getD k 0 = l.getD k 0 ^^^ 2 ^ m := by
  rw [List.getD_eq_getElem?_getD, flipBit, List.getElem?_set_self h]
  rfl

/-- A flip at or past position `s` does not change the first `s` bytes. -/
theorem take_flipBit_of_le (l : List Nat) (k m s : Nat) (h : s ≤ k) :
    (flipBit l k m).take s = l.take s := by
  rw [flipBit, List.set_take]
  refine List.set_eq_of_length_le ?_
  simp only [List.length_take]
  omega

theorem listXor_set_xor (l : List Nat) : ∀ i f : Nat, i < l.length →
    listXor (l.set i (l.getD i 0 ^^^ f)) = listXor l ^^^ f := by
  induction l with
  | nil => intro i f h; simp at h
  | cons x xs ih =>
    intro i f h
    cases i with
    | zero =>
      have h0 : (x :: xs).set 0 ((x :: xs).getD 0 0 ^^^ f) = (x ^^^ f) :: xs := rfl
      rw [h0, listXor_cons, listXor_cons]
      rw [Nat.xor_assoc, Nat.xor_comm f (listXor xs), ← Nat.xor_assoc]
    | succ i =>
      have h0 : (x :: xs).set (i + 1) ((x :: xs).getD (i + 1) 0 ^^^ f)
          = x :: xs.set i (xs.getD i 0 ^^^ f) := rfl
      rw [h0, listXor_cons, ih i f (by simpa using h), listXor_cons, Nat.xor_assoc]

/-- A flip strictly inside the first `s` bytes changes their XOR by the
flipped bit. -/
theorem listXor_take_flipBit (l : List Nat) (k m s : Nat) (hk : k < s)
    (hkl : k < l.length) :
    listXor ((flipBit l k m).take s) = listXor (l.take s) ^^^ 2 ^ m := by
  rw [flipBit, List.set_take]
  have hgd : (l.take s).getD k 0 = l.getD k 0 := by
    rw [List.getD_eq_getElem?_getD, List.getD_eq_getElem?_getD, List.getElem?_take,
      if_pos hk]
  rw [← hgd]
  refine listXor_set_xor (l.take s) k (2 ^ m) ?_
  simp only [List.length_take]
  omega

/-- A byte that is not the sync byte, and cannot be turned into the sync
byte by one bit flip, is not the sync byte after any flip anywhere. -/
theorem flipBit_getD_ne_sync (l : List Nat) (k m t : Nat) (hm : m < 8)
    (h1 : l.getD t 0 ≠ MESG_TX_SYNC)
    (h2 : ∀ m' < 8, l.getD t 0 ^^^ 2 ^ m' ≠ MESG_TX_SYNC) :
    (flipBit l k m).getD t 0 ≠ MESG_TX_SYNC := by
  by_cases ht : t = k
  · subst ht
    by_cases htl : t < l.length
    · rw [getD_flipBit_self l t m htl]
      exact h2 m hm
    · rw [flipBit, List.set_eq_of_length_le (by omega)]
      exact h1
  · rw [getD_flipBit_ne l k m t ht]
    exact h1

/-! ## What an emitted response implies about the buffer -/

theorem slice_getElem? (inner : List Nat) (i s j : Nat) (hj : j < s) :
    ((inner.drop i).take s)[j]? = inner[i + j]? := by
  rw [List.getElem?_take, if_pos hj, List.getElem?_drop]

theorem process_message_ok_inv (buf : List Nat) (r : Response)
    (h : process_message buf = .ok r) :
    (buf[2]? = some MESG_STARTUP_MESG_ID ∧ ∃ x, buf[3]? = some x ∧ r = .startup x) ∨
    (buf[2]? = some MESG_RESPONSE_EVENT_ID ∧ (buf.drop 3).length = 3 ∧
      r = .channelResponse (buf.drop 3)) ∨
    (buf[2]? = some MESG_BROADCAST_DATA_ID ∧ (buf.drop 3).length = 9 ∧
      r = .broadcastData (buf.drop 3)) := by
  unfold process_message at h
  cases hb2 : buf[2]? with
  | none =>
    simp only [hb2] at h
    exact Except.noConfusion h
  | some i =>
    simp only [hb2] at h
    by_cases h1 : i = MESG_STARTUP_MESG_ID
    · rw [if_pos h1] at h
      cases hb3 : buf[3]? with
      | none =>
        simp only [hb3] at h
        exact Except.noConfusion h
      | some x =>
        simp only [hb3] at h
        simp only [Except.ok.injEq] at h
        exact Or.inl ⟨by rw [h1], x, rfl, h.symm⟩
    · rw [if_neg h1] at h
      by_cases h2 : i = MESG_RESPONSE_EVENT_ID
      · rw [if_pos h2] at h
        by_cases h3 : (buf.drop 3).length = 3
        · rw [if_pos h3] at h
          simp only [Except.ok.injEq] at h
          exact Or.inr (Or.inl ⟨by rw [h2], h3, h.symm⟩)
        · rw [if_neg h3] at h; simp at h
      · rw [if_neg h2] at h
        by_cases h4 : i = MESG_BROADCAST_DATA_ID
        · rw [if_pos h4] at h
          by_cases h5 : (buf.drop 3).length = 9
          · rw [if_pos h5] at h
            simp only [Except.ok.injEq] at h
            exact Or.inr (Or.inr ⟨by rw [h4], h5, h.symm⟩)
          · rw [if_neg h5] at h; simp at h
        · rw [if_neg h4] at h; simp at h

/-- Inversion: any response the iterator emits comes from some position
with a sync byte, an in-range declared frame, a zero checksum, and a
successful `process_message`. -/
theorem rbRun_mem_emit (f : Nat) : ∀ (inner : List Nat) (index : Nat) (r : Response),
    r ∈ (rbRun f inner index).1 →
    ∃ i b, index ≤ i ∧ i < inner.length ∧ inner.getD i 0 = MESG_TX_SYNC ∧
      inner[i + 1]? = some b ∧ i + b + 4 ≤ inner.length ∧
      listXor ((inner.drop i).take (b + 4)) = 0 ∧
      process_message ((inner.drop i).take (b + 3)) = .ok r := by
  induction f with
  | zero => intro inner index r h; simp [rbRun] at h
  | succ f ih =>
    intro inner index r h
    rw [rbRun] at h
    by_cases h1 : inner.length ≤ index
    · rw [if_pos h1] at h; simp at h
    · rw [if_neg h1] at h
      by_cases h2 : inner.getD index 0 = MESG_TX_SYNC
      · rw [if_pos h2] at h
        cases hb : inner[index + 1]? with
        | none =>
          simp only [hb] at h
          simp at h
        | some b =>
          simp only [hb] at h
          by_cases h3 : index + b + 4 ≤ inner.length
          · rw [if_pos h3] at h
            by_cases h4 : listXor ((inner.drop index).take (b + 4)) = 0
            · rw [if_pos h4] at h
              cases hpm : process_message ((inner.drop index).take (b + 3)) with
              | ok r0 =>
                simp only [hpm] at h
                simp only [List.mem_cons] at h
                cases h with
                | inl he =>
                  exact ⟨index, b, le_refl _, by omega, h2, hb, h3, h4, by rw [hpm, he]⟩
                | inr hm =>
                  obtain ⟨i, b', hge, hrest⟩ := ih inner (index + b + 4) r hm
                  exact ⟨i, b', by omega, hrest⟩
              | error e =>
                simp only [hpm] at h
                simp at h
            · rw [if_neg h4] at h
              obtain ⟨i, b', hge, hrest⟩ := ih inner (index + 1) r h
              exact ⟨i, b', by omega, hrest⟩
          · rw [if_neg h3] at h; simp at h
      · rw [if_neg h2] at h
        obtain ⟨i, b', hge, hrest⟩ := ih inner (index + 1) r h
        exact ⟨i, b', by omega, hrest⟩

theorem rbDecode_mem_emit (inner : List Nat) (r : Response)
    (h : r ∈ (rbDecode inner).1) :
    ∃ i b, i < inner.length ∧ inner.getD i 0 = MESG_TX_SYNC ∧
      inner[i + 1]? = some b ∧ i + b + 4 ≤ inner.length ∧
      listXor ((inner.drop i).take (b + 4)) = 0 ∧
      process_message ((inner.drop i).take (b + 3)) = .ok r := by
  obtain ⟨i, b, _, hrest⟩ :=
    rbRun_mem_emit (inner.length - 0 + 1) inner 0 r h
  exact ⟨i, b, hrest⟩

/-- Byte-level facts about an encoded frame. -/
theorem encode_facts (id : Nat) (p : List Nat) (h : p.length < 256) :
    (Message.mk id p).encode.length = p.length + 6 ∧
    (Message.mk id p).encode.getD 0 0 = MESG_TX_SYNC ∧
    (Message.mk id p).encode.getD 1 0 = p.length ∧
    (Message.mk id p).encode.getD 2 0 = id ∧
    (Message.mk id p).encode.take (p.length + 4)
      = [MESG_TX_SYNC, p.length, id] ++ p ++
        [listXor ([MESG_TX_SYNC, p.length, id] ++ p)] ∧
    (Message.mk id p).encode.take (p.length + 3) = [MESG_TX_SYNC, p.length, id] ++ p ∧
    listXor (Message.mk id p).encode = 0 := by
  have henc := encode_eq id p h
  set c : Nat := listXor ([MESG_TX_SYNC, p.length, id] ++ p) with hc
  have hcons : (Message.mk id p).encode
      = MESG_TX_SYNC :: p.length :: id :: (p ++ [c, 0, 0]) := by
    rw [henc]
    simp
  refine ⟨?_, ?_, ?_, ?_, ?_, ?_, ?_⟩
  · rw [hcons]; simp
  · rw [hcons]; rfl
  · rw [hcons]; rfl
  · rw [hcons]; rfl
  · rw [henc, List.take_left' (by simp)]
  · rw [henc]
    have hsh : ([MESG_TX_SYNC, p.length, id] ++ p ++ [c]) ++ [0, 0]
        = ([MESG_TX_SYNC, p.length, id] ++ p) ++ ([c] ++ [0, 0]) := by
      simp
    rw [hsh, List.take_left' (by simp)]
  · rw [henc, listXor_append]
    have hz : listXor ([MESG_TX_SYNC, p.length, id] ++ p ++ [c]) = 0 := by
      rw [hc]
      exact listXor_frame_zero p.length id p
    rw [hz]
    decide

theorem xor_cancel_left (a b : Nat) (h : a ^^^ b = a) : b = 0 := by
  have hc := congrArg (fun z => a ^^^ z) h
  simpa [← Nat.xor_assoc, Nat.xor_self, Nat.zero_xor] using hc

theorem listXor_flipBit (l : List Nat) (k m : Nat) (h : k < l.length) :
    listXor (flipBit l k m) = listXor l ^^^ 2 ^ m :=
  listXor_set_xor l k (2 ^ m) h

/-- The endgame of the single-bit-flip analysis, once the emission has been
pinned to the start of the buffer with the original length byte: a flip
inside the checksummed region contradicts the zero checksum, and a flip in
the trailing padding leaves `process_message` looking at the original
frame body, so the emitted response is the original one. -/
theorem corrupt_frame_head_case (id : Nat) (p : List Nat) (k m : Nat) (r : Response)
    (hgf : goodFrame id p) (hlen256 : p.length < 256) (_hm : m < 8)
    (hkL : k < p.length + 6)
    (hxor0 : listXor ((flipBit (Message.mk id p).encode k m).take (p.length + 4)) = 0)
    (hpm : process_message ((flipBit (Message.mk id p).encode k m).take (p.length + 3))
      = .ok r) :
    r = respOf id p := by
  obtain ⟨hL, _, _, _, ht4, ht3, _⟩ := encode_facts id p hlen256
  have h2m : (2 : Nat) ^ m ≠ 0 := pow_ne_zero m (by omega)
  by_cases hk4 : k < p.length + 4
  · exfalso
    rw [listXor_take_flipBit ((Message.mk id p).encode) k m (p.length + 4) hk4
      (by omega)] at hxor0
    have hz : listXor ((Message.mk id p).encode.take (p.length + 4)) = 0 := by
      rw [ht4]
      exact listXor_frame_zero p.length id p
    rw [hz] at hxor0
    simp only [Nat.zero_xor] at hxor0
    exact h2m hxor0
  · rw [take_flipBit_of_le ((Message.mk id p).encode) k m (p.length + 3) (by omega), ht3,
      process_message_good p.length id p hgf] at hpm
    simp only [Except.ok.injEq] at hpm
    exact hpm.symm

/-! ## Claim theorems -/

/-- C1: for every supported response id (startup `0x6F` with a 1-byte
payload, response-event `0x40` with 3 bytes, broadcast-data `0x4E` with 9),
running the `ReadBuffer` decoder over `Message::new(id, payload).encode()`
yields exactly one `Response` with that id and payload, after which the
iterator is exhausted without panicking. -/
theorem claim_C1 (id : Nat) (p : List Nat) (h : goodFrame id p) :
    rbDecode ((Message.mk id p).encode) = ([respOf id p], none) :=
  rbDecode_encode id p h

theorem claim_C1_witness :
    goodFrame MESG_RESPONSE_EVENT_ID [1, 2, 3] ∧
    rbDecode ((Message.mk MESG_RESPONSE_EVENT_ID [1, 2, 3]).encode)
      = ([respOf MESG_RESPONSE_EVENT_ID [1, 2, 3]], none) :=
  ⟨by decide, claim_C1 MESG_RESPONSE_EVENT_ID [1, 2, 3] (by decide)⟩

/-- C2 is false as stated: `Message::encode` of a startup message with a
1-byte payload returns 7 bytes, not `1+1+1+1+1 = 5` — the Rust code
allocates `vec![0; total_size + 3]`, so two zero bytes remain after the
checksum byte. -/
theorem claim_C2_counterexample :
    ¬ (Message.mk MESG_STARTUP_MESG_ID [0]).encode.length = 1 + 1 + 1 + 1 + 1 := by
  decide

/-- C2 (amended): for every id and payload of length `n < 256`,
`Message::encode` returns `1+1+1+n+3` bytes: sync `0xA4`, a length byte
equal to `n`, the id byte, the `n` payload bytes, a checksum byte equal to
the XOR of all preceding bytes (so the first `n+4` bytes XOR to zero),
and then two trailing zero bytes. -/
theorem claim_C2_amended (id : Nat) (p : List Nat) (h : p.length < 256) :
    (Message.mk id p).encode.length = 1 + 1 + 1 + p.length + 3 ∧
    (Message.mk id p).encode.take 3 = [MESG_TX_SYNC, p.length, id] ∧
    ((Message.mk id p).encode.drop 3).take p.length = p ∧
    (Message.mk id p).encode.getD (p.length + 3) 0
      = listXor ((Message.mk id p).encode.take (p.length + 3)) ∧
    listXor ((Message.mk id p).encode.take (p.length + 4)) = 0 ∧
    (Message.mk id p).encode.drop (p.length + 4) = [0, 0] := by
  have henc := encode_eq id p h
  set c : Nat := listXor ([MESG_TX_SYNC, p.length, id] ++ p) with hc
  have hsh : (Message.mk id p).encode
      = ([MESG_TX_SYNC, p.length, id] ++ p) ++ ([c] ++ [0, 0]) := by
    rw [henc]
    simp [List.append_assoc]
  have hhead : ([MESG_TX_SYNC, p.length, id] ++ p).length = p.length + 3 := by
    simp
  refine ⟨?_, ?_, ?_, ?_, ?_, ?_⟩
  · rw [hsh]
    simp
    omega
  · rw [henc]
    have : ([MESG_TX_SYNC, p.length, id] ++ p ++ [c]) ++ [0, 0]
        = [MESG_TX_SYNC, p.length, id] ++ (p ++ [c] ++ [0, 0]) := by
      simp [List.append_assoc]
    rw [this, List.take_left' (by simp)]
  · rw [henc]
    have : ([MESG_TX_SYNC, p.length, id] ++ p ++ [c]) ++ [0, 0]
        = [MESG_TX_SYNC, p.length, id] ++ (p ++ ([c] ++ [0, 0])) := by
      simp [List.append_assoc]
    rw [this]
    have hd : ([MESG_TX_SYNC, p.length, id] ++ (p ++ ([c] ++ [0, 0]))).drop 3
        = p ++ ([c] ++ [0, 0]) := by
      simp
    rw [hd, List.take_left' rfl]
  · rw [hsh]
    rw [List.getD_append_right _ _ _ _ (by simp)]
    rw [List.take_left' (by simp [hhead])]
    simp [hhead, hc]
  · rw [henc, List.take_left' (by simp)]
    exact listXor_frame_zero p.length id p
  · rw [hsh]
    have : p.length + 4 = (([MESG_TX_SYNC, p.length, id] ++ p) ++ [c]).length := by
      simp
    rw [this, ← List.append_assoc, List.drop_left]

theorem claim_C2_amended_witness :
    ([7] : List Nat).length < 256 ∧
    ((Message.mk MESG_ASSIGN_CHANNEL_ID [7]).encode.length = 1 + 1 + 1 + 1 + 3 ∧
      (Message.mk MESG_ASSIGN_CHANNEL_ID [7]).encode.take 3
        = [MESG_TX_SYNC, 1, MESG_ASSIGN_CHANNEL_ID] ∧
      ((Message.mk MESG_ASSIGN_CHANNEL_ID [7]).encode.drop 3).take 1 = [7] ∧
      (Message.mk MESG_ASSIGN_CHANNEL_ID [7]).encode.getD 4 0
        = listXor ((Message.mk MESG_ASSIGN_CHANNEL_ID [7]).encode.take 4) ∧
      listXor ((Message.mk MESG_ASSIGN_CHANNEL_ID [7]).encode.take 5) = 0 ∧
      (Message.mk MESG_ASSIGN_CHANNEL_ID [7]).encode.drop 5 = [0, 0]) :=
  ⟨by decide, claim_C2_amended MESG_ASSIGN_CHANNEL_ID [7] (by decide)⟩

/-- C3: what the code actually does on consecutive read timeouts in the
`Reset` state, starting from `reset_attempts = 0`: the first two timeouts
each send one reset command, and the third already returns the fatal
`AntError::Reset`.  Only two reset commands are ever sent, not three, and
the failure comes on the third timeout, not the fourth — contradicting
both the claim and the code's own comment ("configured to try three
times"). -/
theorem claim_C3_code (a : Ant) (hs : a.state = AntState.Reset) :
    a.onTimeout 0 = .ok (a, 1, [reset]) ∧
    a.onTimeout 1 = .ok (a, 2, [reset]) ∧
    a.onTimeout 2 = .error AntError.Reset := by
  refine ⟨?_, ?_, ?_⟩ <;> simp [Ant.onTimeout, hs]

theorem claim_C3_code_witness :
    (Ant.mk AntState.Reset []).state = AntState.Reset ∧
    ((Ant.mk AntState.Reset []).onTimeout 0 = .ok (Ant.mk AntState.Reset [], 1, [reset]) ∧
      (Ant.mk AntState.Reset []).onTimeout 1 = .ok (Ant.mk AntState.Reset [], 2, [reset]) ∧
      (Ant.mk AntState.Reset []).onTimeout 2 = .error AntError.Reset) :=
  ⟨rfl, claim_C3_code (Ant.mk AntState.Reset []) rfl⟩

/-- C4: a new `Channel` starts in `Assign`; in each configuration state the
expected acknowledgement id advances the state one step along
Assign → SetDeviceId → SetTimeout → SetPeriod → SetFrequency → Open and
returns the documented next outbound message, built from the channel's
configured device parameters; any other message id in those states returns
`None` and leaves the state unchanged. -/
theorem claim_C4 (n : Nat) (cfg : Config) (c : Channel) (mesg : List Nat) :
    (Channel.new n cfg).state = ChannelState.Assign
    ∧ (c.state = ChannelState.Assign → crmMessageId mesg = MESG_ASSIGN_CHANNEL_ID →
        c.route mesg = .ok ({ c with state := ChannelState.SetDeviceId },
          some (set_channel_id c.number c.device.device_id c.device.device_type
            c.device.transmission_type)))
    ∧ (c.state = ChannelState.SetDeviceId → crmMessageId mesg = MESG_CHANNEL_ID_ID →
        c.route mesg = .ok ({ c with state := ChannelState.SetTimeout },
          some (set_hp_search_timeout c.number c.device.timeout)))
    ∧ (c.state = ChannelState.SetTimeout → crmMessageId mesg = MESG_CHANNEL_SEARCH_TIMEOUT_ID →
        c.route mesg = .ok ({ c with state := ChannelState.SetPeriod },
          some (set_channel_period c.number c.device.period)))
    ∧ (c.state = ChannelState.SetPeriod → crmMessageId mesg = MESG_CHANNEL_MESG_PERIOD_ID →
        c.route mesg = .ok ({ c with state := ChannelState.SetFrequency },
          some (set_channel_frequency c.number c.device.frequency)))
    ∧ (c.state = ChannelState.SetFrequency → crmMessageId mesg = MESG_CHANNEL_RADIO_FREQ_ID →
        c.route mesg = .ok ({ c with state := ChannelState.Open },
          some (open_channel c.number)))
    ∧ (c.state = ChannelState.Assign → crmMessageId mesg ≠ MESG_ASSIGN_CHANNEL_ID →
        c.route mesg = .ok (c, none))
    ∧ (c.state = ChannelState.SetDeviceId → crmMessageId mesg ≠ MESG_CHANNEL_ID_ID →
        c.route mesg = .ok (c, none))
    ∧ (c.state = ChannelState.SetTimeout → crmMessageId mesg ≠ MESG_CHANNEL_SEARCH_TIMEOUT_ID →
        c.route mesg = .ok (c, none))
    ∧ (c.state = ChannelState.SetPeriod → crmMessageId mesg ≠ MESG_CHANNEL_MESG_PERIOD_ID →
        c.route mesg = .ok (c, none))
    ∧ (c.state = ChannelState.SetFrequency → crmMessageId mesg ≠ MESG_CHANNEL_RADIO_FREQ_ID →
        c.route mesg = .ok (c, none)) := by
  refine ⟨rfl, ?_, ?_, ?_, ?_, ?_, ?_, ?_, ?_, ?_, ?_⟩ <;> intro hs hid <;>
    simp [Channel.route, hs, hid, Channel.set_channel_id, Channel.set_hp_search_timeout,
      Channel.set_period, Channel.set_frequency, Channel.openMsg]

theorem claim_C4_witness :
    (Channel.new 0 Config.new).state = ChannelState.Assign ∧
    (Channel.mk ChannelState.Assign 0 Config.new).route [0, MESG_ASSIGN_CHANNEL_ID, 0]
      = .ok (Channel.mk ChannelState.SetDeviceId 0 Config.new,
          some (set_channel_id 0 0 0 0)) := by
  have h := claim_C4 0 Config.new (Channel.mk ChannelState.Assign 0 Config.new)
    [0, MESG_ASSIGN_CHANNEL_ID, 0]
  exact ⟨h.1, h.2.1 rfl (by decide)⟩

/-- C5: the bring-up machine: a `Startup` in `Reset` sends the network-key
command and moves to `SetNetworkKey`, returning to `Reset` when the send
fails; a `ChannelResponse` with code `ResponseNoError` in `SetNetworkKey`
moves to `Running`; a `Startup` in `SetNetworkKey` or `Running` moves back
to `Reset`. -/
theorem claim_C5 (a : Ant) (r : Nat) (bytes : List Nat) (wOk : Bool) :
    (a.state = AntState.Reset →
      Ant.route true a (.startup r)
        = .ok ({ a with state := AntState.SetNetworkKey },
            [set_network_key ANT_NETWORK ANT_NETWORK_KEY], []))
    ∧ (a.state = AntState.Reset →
      Ant.route false a (.startup r)
        = .ok ({ a with state := AntState.Reset }, [], []))
    ∧ (a.state = AntState.SetNetworkKey → crmCodeByte bytes = RESPONSE_NO_ERROR →
      Ant.route wOk a (.channelResponse bytes)
        = .ok ({ a with state := AntState.Running }, [], []))
    ∧ (a.state = AntState.SetNetworkKey →
      Ant.route wOk a (.startup r) = .ok ({ a with state := AntState.Reset }, [], []))
    ∧ (a.state = AntState.Running →
      Ant.route wOk a (.startup r) = .ok ({ a with state := AntState.Reset }, [], [])) := by
  refine ⟨?_, ?_, ?_, ?_, ?_⟩
  · intro hs
    simp [Ant.route, hs]
  · intro hs
    simp [Ant.route, hs]
  · intro hs hcb
    simp [Ant.route, hs, hcb, RESPONSE_NO_ERROR, codeOf?]
  · intro hs
    simp [Ant.route, hs]
  · intro hs
    simp [Ant.route, hs]

theorem claim_C5_witness :
    ((Ant.mk AntState.Reset []).state = AntState.Reset ∧
      Ant.route true (Ant.mk AntState.Reset []) (.startup 0)
        = .ok (Ant.mk AntState.SetNetworkKey [],
            [set_network_key ANT_NETWORK ANT_NETWORK_KEY], [])) ∧
    ((Ant.mk AntState.SetNetworkKey []).state = AntState.SetNetworkKey ∧
      crmCodeByte [0, MESG_NETWORK_KEY_ID, 0] = RESPONSE_NO_ERROR ∧
      Ant.route true (Ant.mk AntState.SetNetworkKey [])
          (.channelResponse [0, MESG_NETWORK_KEY_ID, 0])
        = .ok (Ant.mk AntState.Running [], [], [])) :=
  ⟨⟨rfl, (claim_C5 (Ant.mk AntState.Reset []) 0 [] true).1 rfl⟩,
    ⟨rfl, by decide,
      (claim_C5 (Ant.mk AntState.SetNetworkKey []) 0 [0, MESG_NETWORK_KEY_ID, 0] true).2.2.1
        rfl (by decide)⟩⟩

/-- C6 is false as stated: the 1-byte noise sequence `[0xA4]` contains no
checksum-valid frame, yet decoding `F ++ [0xA4] ++ F` (with `F` a valid
startup frame) does not yield the two decoded frames: the decoder emits
the first frame, then treats the noise byte as a sync byte, reads `F`'s
sync byte `0xA4 = 164` as a length byte, and panics indexing past the end
of the buffer in the checksum loop. -/
theorem claim_C6_counterexample :
    ¬ containsValidFrame [MESG_TX_SYNC] ∧
    rbDecode ((Message.mk MESG_STARTUP_MESG_ID [0]).encode ++ [MESG_TX_SYNC]
        ++ (Message.mk MESG_STARTUP_MESG_ID [0]).encode)
      = ([Response.startup 0], some Panic.indexOutOfBounds) := by
  exact ⟨by decide, by decide⟩

/-- C6 (amended): any byte stream made of checksum-valid frames of the
supported ids interleaved with noise segments free of the sync byte `0xA4`
decodes to exactly the frames' responses in order, with the iterator then
exhausted and no panic.  (Noise merely containing no checksum-valid frame
does not suffice — a trailing `0xA4` in the noise makes the decoder read a
length byte from the following frame and index out of bounds.) -/
theorem claim_C6_amended (ss : List Seg) (h : ∀ s ∈ ss, s.good) :
    rbDecode (segsBytes ss) = (segsResps ss, none) := by
  have hres := rbDecodeFrom_segments ss [] h
  simpa [rbDecode] using hres

theorem claim_C6_amended_witness :
    (∀ s ∈ ([Seg.frame MESG_STARTUP_MESG_ID [0], Seg.frame MESG_STARTUP_MESG_ID [0],
        Seg.noise [0, 1, 2, 3], Seg.frame MESG_STARTUP_MESG_ID [0]] : List Seg), s.good) ∧
    rbDecode (segsBytes [Seg.frame MESG_STARTUP_MESG_ID [0],
        Seg.frame MESG_STARTUP_MESG_ID [0], Seg.noise [0, 1, 2, 3],
        Seg.frame MESG_STARTUP_MESG_ID [0]])
      = ([Response.startup 0, Response.startup 0, Response.startup 0], none) :=
  ⟨by decide,
    claim_C6_amended [Seg.frame MESG_STARTUP_MESG_ID [0], Seg.frame MESG_STARTUP_MESG_ID [0],
      Seg.noise [0, 1, 2, 3], Seg.frame MESG_STARTUP_MESG_ID [0]] (by decide)⟩

/-- C7 is false as stated: flipping bit 0 of byte 5 — the first of the two
trailing padding bytes `Message::encode` appends after the checksum — of a
valid encoded startup frame does not make the codec reject the altered
frame on checksum mismatch: the frame still decodes to the original
message, because the padding lies outside the checksummed region. -/
theorem claim_C7_counterexample :
    5 < (Message.mk MESG_STARTUP_MESG_ID [0]).encode.length ∧
    rbDecode (flipBit (Message.mk MESG_STARTUP_MESG_ID [0]).encode 5 0)
      = ([Response.startup 0], none) :=
  ⟨by decide, by decide⟩

/-- C7 (amended): for every valid encoded frame of a supported id and
every single-bit flip in it, the decoder never emits a message carrying
the original frame's id with a corrupted payload: any response it emits
with the original id is exactly the original response.  (A flip inside the
checksummed first `n+4` bytes is rejected there — by checksum mismatch, or
by an out-of-bounds panic when the length byte was flipped — while a flip
in the two trailing padding bytes leaves the original frame accepted
unchanged.) -/
theorem claim_C7_amended (id : Nat) (p : List Nat) (k m : Nat)
    (hgf : goodFrame id p) (hk : k < (Message.mk id p).encode.length) (hm : m < 8) :
    ∀ r ∈ (rbDecode (flipBit (Message.mk id p).encode k m)).1,
      r.isId id → r = respOf id p := by
  intro r hr hid
  have hlen256 : p.length < 256 := by
    rcases hgf with ⟨_, h⟩ | ⟨_, h⟩ | ⟨_, h⟩ <;> omega
  obtain ⟨hL, hg0, hg1, hg2, ht4, ht3, hx0⟩ := encode_facts id p hlen256
  have h2m : (2 : Nat) ^ m ≠ 0 := pow_ne_zero m (by omega)
  rw [hL] at hk
  obtain ⟨i, b, hiL, hsync, hb, hib, hxor0, hpm⟩ :=
    rbDecode_mem_emit (flipBit (Message.mk id p).encode k m) r hr
  rw [length_flipBit, hL] at hiL hib
  have hbD : (flipBit (Message.mk id p).encode k m).getD (i + 1) 0 = b := by
    rw [List.getD_eq_getElem?_getD, hb]
    rfl
  rcases hgf with ⟨hidv, hpl⟩ | ⟨hidv, hpl⟩ | ⟨hidv, hpl⟩
  · -- startup frame, payload length 1
    subst hidv
    rcases process_message_ok_inv _ _ hpm with ⟨hs2, x, hs3, hrx⟩ | ⟨hs2, hlen3, hrx⟩ |
      ⟨hs2, hlen9, hrx⟩
    · have h3b : 3 < b + 3 := by
        by_contra hcon
        rw [List.getElem?_take, if_neg hcon] at hs3
        exact Option.noConfusion hs3
      have hi2 : i ≤ 2 := by omega
      interval_cases i
      · simp only [Nat.zero_add, List.drop_zero] at hbD hxor0 hpm
        by_cases hk1 : k = 1
        · subst hk1
          rw [getD_flipBit_self _ 1 m (by omega), hg1, hpl] at hbD
          have hb3 : b ≤ 3 := by omega
          have hm1 : m = 1 := by
            have hd : ∀ m' < 8, 1 ≤ 1 ^^^ 2 ^ m' → 1 ^^^ 2 ^ m' ≤ 3 → m' = 1 := by decide
            exact hd m hm (by omega) (by omega)
          subst hm1
          have hbv : b = 3 := by
            have h13 : (1 : Nat) ^^^ 2 ^ 1 = 3 := by decide
            omega
          subst hbv
          have h7 : (flipBit (Message.mk MESG_STARTUP_MESG_ID p).encode 1 1).take (3 + 4)
              = flipBit (Message.mk MESG_STARTUP_MESG_ID p).encode 1 1 := by
            refine List.take_of_length_le ?_
            rw [length_flipBit, hL]
            omega
          rw [h7, listXor_flipBit _ 1 1 (by rw [hL]; omega), hx0] at hxor0
          exact absurd hxor0 (by decide)
        · have hbv : b = 1 := by
            rw [getD_flipBit_ne _ k m 1 (by omega), hg1, hpl] at hbD
            omega
          subst hbv
          refine corrupt_frame_head_case MESG_STARTUP_MESG_ID p k m r
            (Or.inl ⟨rfl, hpl⟩) hlen256 hm (by omega) ?_ ?_
          · rw [hpl]
            exact hxor0
          · rw [hpl]
            exact hpm
      · exact absurd hsync (flipBit_getD_ne_sync _ k m 1 hm
          (by simp only [hg1, hpl]; decide) (by simp only [hg1, hpl]; decide))
      · exact absurd hsync (flipBit_getD_ne_sync _ k m 2 hm
          (by simp only [hg2]; decide) (by simp only [hg2]; decide))
    · subst hrx
      exact absurd hid (by
        simp [Response.isId, MESG_STARTUP_MESG_ID, MESG_RESPONSE_EVENT_ID])
    · subst hrx
      exact absurd hid (by
        simp [Response.isId, MESG_STARTUP_MESG_ID, MESG_BROADCAST_DATA_ID])
  · -- response-event frame, payload length 3
    subst hidv
    rcases process_message_ok_inv _ _ hpm with ⟨hs2, x, hs3, hrx⟩ | ⟨hs2, hlen3, hrx⟩ |
      ⟨hs2, hlen9, hrx⟩
    · subst hrx
      exact absurd hid (by
        simp [Response.isId, MESG_STARTUP_MESG_ID, MESG_RESPONSE_EVENT_ID])
    · have hsl : (((flipBit (Message.mk MESG_RESPONSE_EVENT_ID p).encode k m).drop i).take
          (b + 3)).length = b + 3 := by
        simp only [List.length_take, List.length_drop, length_flipBit, hL]
        omega
      have hbv : b = 3 := by
        rw [List.length_drop, hsl] at hlen3
        omega
      subst hbv
      have hi2 : i ≤ 2 := by omega
      interval_cases i
      · simp only [Nat.zero_add, List.drop_zero] at hxor0 hpm
        refine corrupt_frame_head_case MESG_RESPONSE_EVENT_ID p k m r
          (Or.inr (Or.inl ⟨rfl, hpl⟩)) hlen256 hm hk ?_ ?_
        · rw [hpl]
          exact hxor0
        · rw [hpl]
          exact hpm
      · exact absurd hsync (flipBit_getD_ne_sync _ k m 1 hm
          (by simp only [hg1, hpl]; decide) (by simp only [hg1, hpl]; decide))
      · exact absurd hsync (flipBit_getD_ne_sync _ k m 2 hm
          (by simp only [hg2]; decide) (by simp only [hg2]; decide))
    · subst hrx
      exact absurd hid (by
        simp [Response.isId, MESG_RESPONSE_EVENT_ID, MESG_BROADCAST_DATA_ID])
  · -- broadcast-data frame, payload length 9
    subst hidv
    rcases process_message_ok_inv _ _ hpm with ⟨hs2, x, hs3, hrx⟩ | ⟨hs2, hlen3, hrx⟩ |
      ⟨hs2, hlen9, hrx⟩
    · subst hrx
      exact absurd hid (by
        simp [Response.isId, MESG_STARTUP_MESG_ID, MESG_BROADCAST_DATA_ID])
    · subst hrx
      exact absurd hid (by
        simp [Response.isId, MESG_RESPONSE_EVENT_ID, MESG_BROADCAST_DATA_ID])
    · have hsl : (((flipBit (Message.mk MESG_BROADCAST_DATA_ID p).encode k m).drop i).take
          (b + 3)).length = b + 3 := by
        simp only [List.length_take, List.length_drop, length_flipBit, hL]
        omega
      have hbv : b = 9 := by
        rw [List.length_drop, hsl] at hlen9
        omega
      subst hbv
      have hi2 : i ≤ 2 := by omega
      interval_cases i
      · simp only [Nat.zero_add, List.drop_zero] at hxor0 hpm
        refine corrupt_frame_head_case MESG_BROADCAST_DATA_ID p k m r
          (Or.inr (Or.inr ⟨rfl, hpl⟩)) hlen256 hm hk ?_ ?_
        · rw [hpl]
          exact hxor0
        · rw [hpl]
          exact hpm
      · exact absurd hsync (flipBit_getD_ne_sync _ k m 1 hm
          (by simp only [hg1, hpl]; decide) (by simp only [hg1, hpl]; decide))
      · exact absurd hsync (flipBit_getD_ne_sync _ k m 2 hm
          (by simp only [hg2]; decide) (by simp only [hg2]; decide))

theorem claim_C7_amended_witness :
    (goodFrame MESG_STARTUP_MESG_ID [0] ∧
      5 < (Message.mk MESG_STARTUP_MESG_ID [0]).encode.length ∧ 0 < 8 ∧
      Response.startup 0 ∈
        (rbDecode (flipBit (Message.mk MESG_STARTUP_MESG_ID [0]).encode 5 0)).1 ∧
      (Response.startup 0).isId MESG_STARTUP_MESG_ID) ∧
    Response.startup 0 = respOf MESG_STARTUP_MESG_ID [0] :=
  ⟨⟨by decide, by decide, by decide, by decide, rfl⟩,
    claim_C7_amended MESG_STARTUP_MESG_ID [0] 5 0 (by decide) (by decide) (by decide)
      (Response.startup 0) (by decide) rfl⟩

/-- C8: in `Running`, an event (`originating id = 1`) `ChannelResponse`
with code `EventChannelClosed` for channel `n` makes the dispatcher write
an open-channel message when slot `n` holds a channel (re-open), and an
unassign-channel message when slot `n` is empty; the dispatcher state —
including the slot array — is unchanged in both cases. -/
theorem claim_C8 (a : Ant) (n : Nat) (c : Channel) (hs : a.state = AntState.Running)
    (hnum : c.number = n) :
    (a.channels[n]? = some (some c) →
      Ant.route true a (.channelResponse [n, MESG_EVENT_ID, EVENT_CHANNEL_CLOSED])
        = .ok (a, [open_channel n], []))
    ∧ (a.channels[n]? = some none →
      Ant.route true a (.channelResponse [n, MESG_EVENT_ID, EVENT_CHANNEL_CLOSED])
        = .ok (a, [unassign_channel n], [])) := by
  constructor
  · intro hc
    simp [Ant.route, hs, crmMessageId, crmChannel, crmCodeByte, MESG_EVENT_ID,
      EVENT_CHANNEL_CLOSED, codeOf?, hc, Channel.openMsg, hnum]
  · intro hc
    simp [Ant.route, hs, crmMessageId, crmChannel, crmCodeByte, MESG_EVENT_ID,
      EVENT_CHANNEL_CLOSED, codeOf?, hc]

theorem claim_C8_witness :
    ((Ant.mk AntState.Running [some (Channel.new 0 Config.new), none]).channels[0]?
        = some (some (Channel.new 0 Config.new)) ∧
      Ant.route true (Ant.mk AntState.Running [some (Channel.new 0 Config.new), none])
          (.channelResponse [0, MESG_EVENT_ID, EVENT_CHANNEL_CLOSED])
        = .ok (Ant.mk AntState.Running [some (Channel.new 0 Config.new), none],
            [open_channel 0], [])) ∧
    ((Ant.mk AntState.Running [some (Channel.new 0 Config.new), none]).channels[1]?
        = some none ∧
      Ant.route true (Ant.mk AntState.Running [some (Channel.new 0 Config.new), none])
          (.channelResponse [1, MESG_EVENT_ID, EVENT_CHANNEL_CLOSED])
        = .ok (Ant.mk AntState.Running [some (Channel.new 0 Config.new), none],
            [unassign_channel 1], [])) :=
  ⟨⟨rfl, (claim_C8 (Ant.mk AntState.Running [some (Channel.new 0 Config.new), none]) 0
      (Channel.new 0 Config.new) rfl rfl).1 rfl⟩,
    ⟨rfl, (claim_C8 (Ant.mk AntState.Running [some (Channel.new 0 Config.new), none]) 1
      (Channel.new 1 Config.new) rfl rfl).2 rfl⟩⟩

/-- C9: in `Running`, an `OpenChannel(n, config)` request for an occupied
slot `n` sends the `ChannelExists(n)` error to the caller and changes
nothing else: the dispatcher state (bring-up state and every slot,
including the existing channel) is unchanged, nothing is written to the
transport, and the loop does not exit. -/
theorem claim_C9 (a : Ant) (n : Nat) (cfg : Config) (c : Channel)
    (_hs : a.state = AntState.Running) (hc : a.channels[n]? = some (some c)) :
    a.handleRequest (.OpenChannel n cfg)
      = .ok (a, [], [.error (.ChannelExists n)], false) := by
  simp [Ant.handleRequest, hc]

theorem claim_C9_witness :
    (Ant.mk AntState.Running [some (Channel.new 0 Config.new)]).state = AntState.Running ∧
    (Ant.mk AntState.Running [some (Channel.new 0 Config.new)]).channels[0]?
      = some (some (Channel.new 0 Config.new)) ∧
    (Ant.mk AntState.Running [some (Channel.new 0 Config.new)]).handleRequest
        (.OpenChannel 0 Config.new)
      = .ok (Ant.mk AntState.Running [some (Channel.new 0 Config.new)], [],
          [.error (.ChannelExists 0)], false) :=
  ⟨rfl, rfl, claim_C9 (Ant.mk AntState.Running [some (Channel.new 0 Config.new)]) 0
    Config.new (Channel.new 0 Config.new) rfl rfl⟩

/-- C10: the decoder is not total on arbitrary buffers: on the one-byte
buffer `[0xA4]` the iterator finds the sync byte and then reads the length
byte at `index + 1`, which is past the end of the buffer — an index panic
rather than `None` or resynchronization. -/
theorem claim_C10 :
    rbDecode [MESG_TX_SYNC] = ([], some Panic.indexOutOfBounds) := by
  decide

end Libant
